import Mathlib

/-!
Verification of the grid-algebra core of the flowtools repository.

The Python source is shallowly embedded over exact rationals (ℚ):

* `strata/dataformats/simple/average.py` — `average_data` and `combine_bins`
  over plain seven-field maps;
* `droplets/resample.py` — `downsample_flow_data`, `supersample_flow_data`
  and their helpers over structured record arrays;
* `droplets/average.py` (`get_combined_grid`) is not present in the source
  tree, so it is modelled from the specification and its tests.

Structured numpy arrays are modelled as lists of cells, a cell being a total
function from field label to value; 2-D rasters are functions of the two
indices.  Machine floats are modelled as exact rationals, with the one IEEE
artefact the code relies on (`nan_to_num` after a division) modelled
explicitly in `divNanToNum`.
-/

/-- numpy float64 largest finite value, `(2 - 2^-52) * 2^1023`; `np.nan_to_num`
replaces `inf` by it. -/
def npMaxFloat : ℚ := 2 ^ 1024 - 2 ^ 971

/-- IEEE division `a / b` followed by `np.nan_to_num`: `0/0` is NaN and maps
to `0`; `a/0` with `a ≠ 0` is `±inf` and maps to `±npMaxFloat`; otherwise the
exact quotient.  Mirrors `get_weighted_avg` in
`strata/dataformats/simple/average.py`. -/
def divNanToNum (a b : ℚ) : ℚ :=
  if b = 0 then (if a = 0 then 0 else if 0 < a then npMaxFloat else -npMaxFloat)
  else a / b

/-- Stable insertion of an element into a list, first position where `le`
holds.  Building block for the model of a stable sort. -/
def insertLe {α : Type} (le : α → α → Bool) (a : α) : List α → List α
  | [] => [a]
  | b :: bs => if le a b then a :: b :: bs else b :: insertLe le a bs

/-- Stable structural sort; models `np.sort(..., order=...)` and the in-place
`FlowData.sort`, both of which order records by the given key comparison. -/
def sortByLe {α : Type} (le : α → α → Bool) : List α → List α
  | [] => []
  | a :: as => insertLe le a (sortByLe le as)

/-- One map of the simple data format: seven equal-length fields, each a
function from flat bin index to value.  Mirrors the dicts consumed by
`strata/dataformats/simple/average.py`. -/
structure SimpleMap where
  X : Nat → ℚ
  Y : Nat → ℚ
  M : Nat → ℚ
  N : Nat → ℚ
  T : Nat → ℚ
  U : Nat → ℚ
  V : Nat → ℚ

/-- `np.isclose(a, b, atol=atol, rtol=rtol)`, elementwise criterion
`|a - b| <= atol + rtol * |b|`. -/
def npIsClose (atol rtol a b : ℚ) : Prop := |a - b| ≤ atol + rtol * |b|

instance (atol rtol a b : ℚ) : Decidable (npIsClose atol rtol a b) := by
  unfold npIsClose; infer_instance

/-- The `init_with_coords` coordinate check of `average_data`: the first
map's `X` and `Y` arrays are `np.isclose` to map `d`'s on all `n` bins. -/
def coordsMatch (n : Nat) (atol rtol : ℚ) (first d : SimpleMap) : Bool :=
  decide (∀ i < n, npIsClose atol rtol (first.X i) (d.X i) ∧
                   npIsClose atol rtol (first.Y i) (d.Y i))

/-- `np.sum([f(d) for d in ds], 0)` at bin `i`: sum of one field expression
across the listed maps. -/
def framesSum (ds : List SimpleMap) (f : SimpleMap → Nat → ℚ) (i : Nat) : ℚ :=
  (ds.map (fun d => f d i)).sum

/-- Error message raised by `average_data` on a coordinate mismatch. -/
def coordMismatchMsg : String :=
  "coordinates of data to average does not match for all maps"

/-- The averaged record built by `average_data` over the maps `ds` (first
map `first` supplies the coordinates): `M`/`N` are `np.mean` across maps,
`U`/`V` are mass-weighted and `T` number-weighted ratios of frame sums
passed through `np.nan_to_num`. -/
def averagedMap (first : SimpleMap) (ds : List SimpleMap) : SimpleMap :=
  { X := first.X
    Y := first.Y
    M := fun i => framesSum ds (fun d => d.M) i / (ds.length : ℚ)
    N := fun i => framesSum ds (fun d => d.N) i / (ds.length : ℚ)
    U := fun i => divNanToNum (framesSum ds (fun d j => d.U j * d.M j) i)
                              (framesSum ds (fun d => d.M) i)
    V := fun i => divNanToNum (framesSum ds (fun d j => d.V j * d.M j) i)
                              (framesSum ds (fun d => d.M) i)
    T := fun i => divNanToNum (framesSum ds (fun d j => d.T j * d.N j) i)
                              (framesSum ds (fun d => d.N) i) }

/-- `average_data` from `strata/dataformats/simple/average.py`: empty input
returns the empty dict (modelled `none`); otherwise the coordinates of every
later map are checked against the first (`AssertionError` re-raised as
`ValueError`) and the averaged record is built. -/
def averageData (n : Nat) (atol rtol : ℚ) (data : List SimpleMap) :
    Except String (Option SimpleMap) :=
  match data with
  | [] => Except.ok none
  | first :: rest =>
    if rest.all (fun d => coordsMatch n atol rtol first d) then
      Except.ok (some (averagedMap first (first :: rest)))
    else
      Except.error coordMismatchMsg

/-- One record of a structured numpy array: a total assignment of a value to
every field label.  Labels outside the array's dtype are never read. -/
def Cell : Type := String → ℚ

/-- Grid metadata dict attached to a `FlowData`: `spacing`, `shape` (nx, ny),
`origin` and `num_bins`. -/
structure GridInfo where
  spacing : ℚ × ℚ
  shape : Nat × Nat
  origin : ℚ × ℚ
  numBins : Nat

/-- A `FlowData` object from `flow/flow.py`: the dtype's label list, the flat
structured data array, and the grid-info metadata. -/
structure FlowDataR where
  labels : List String
  cells : List Cell
  info : GridInfo

/-- Modelled from the spec: `FlowData.copy` lives in `flow/flow.py`, which is
not under the source tree (only its tests are).  Per the spec, copying
"produces deep, independent array storage" with unchanged values, so at the
value level a copy is the identity; storage independence is treated in the
heap model below. -/
def flowCopy (flow : FlowDataR) : FlowDataR := flow

/-- Minimum of a list of rationals, `np.min`; the empty list (on which numpy
errors) is given the junk value 0. -/
def listMin (xs : List ℚ) : ℚ := xs.foldl min (xs.headD 0)

/-- Maximum of a list of rationals, `np.max`. -/
def listMax (xs : List ℚ) : ℚ := xs.foldl max (xs.headD 0)

/-- Membership of a value in an optional-bounds interval, as in
`_cut_system_limits`: a `none` bound means `±inf`, bounds are inclusive. -/
def inLims (lims : Option ℚ × Option ℚ) (v : ℚ) : Bool :=
  (match lims.1 with | none => true | some lo => decide (lo ≤ v)) &&
  (match lims.2 with | none => true | some hi => decide (v ≤ hi))

/-- `_cut_system_limits` from `droplets/resample.py`: boolean-mask selection
of the cells inside both coordinate ranges (a copy in numpy), new shape from
the count of distinct surviving coordinates per axis, new origin from their
minima, spacing kept. -/
def cutSystemLimits (flow : FlowDataR) (xlim ylim : Option ℚ × Option ℚ)
    (xl yl : String) : FlowDataR :=
  let cells2 := flow.cells.filter (fun c => inLims xlim (c xl) && inLims ylim (c yl))
  let shape := ((cells2.map (fun c => c xl)).dedup.length,
                (cells2.map (fun c => c yl)).dedup.length)
  { labels := flow.labels
    cells := cells2
    info := {
      spacing := flow.info.spacing
      shape := shape
      origin := (listMin (cells2.map (fun c => c xl)),
                 listMin (cells2.map (fun c => c yl)))
      numBins := shape.1 * shape.2 } }

/-- `_get_downscaled_grid_info` from `droplets/resample.py`: per axis the new
spacing is the old times the combine factor, the new shape the floor quotient,
and the new origin is shifted by half the spacing difference. -/
def downscaledGridInfo (info : GridInfo) (numCombine : Nat × Nat) : GridInfo :=
  let newSpacing := (info.spacing.1 * (numCombine.1 : ℚ),
                     info.spacing.2 * (numCombine.2 : ℚ))
  let newShape := (info.shape.1 / numCombine.1, info.shape.2 / numCombine.2)
  { spacing := newSpacing
    shape := newShape
    origin := (info.origin.1 + (1/2) * (newSpacing.1 - info.spacing.1),
               info.origin.2 + (1/2) * (newSpacing.2 - info.spacing.2))
    numBins := newShape.1 * newShape.2 }

/-- The x coordinate mesh of `_get_downscaled_grid_coords` (numpy `meshgrid`
in its default xy indexing): entry `(i, j)` is the j-th axis value. -/
def dGridX (info : GridInfo) (_i j : Nat) : ℚ := info.origin.1 + info.spacing.1 * (j : ℚ)

/-- The y coordinate mesh of `_get_downscaled_grid_coords`: entry `(i, j)` is
the i-th axis value. -/
def dGridY (info : GridInfo) (i _j : Nat) : ℚ := info.origin.2 + info.spacing.2 * (i : ℚ)

/-- Record comparison used by `np.sort(flow.data, order=[yl, xl])` and by
`FlowData.sort(coord_labels)`: lexicographic by y first, then x. -/
def cellLeYX (xl yl : String) (a b : Cell) : Bool :=
  decide (a yl < b yl ∨ (a yl = b yl ∧ a xl ≤ b xl))

/-- The sorted input of `_combine_bins` reshaped to a `(ny, nx)` raster:
row-major lookup into the y-major/x-minor sorted flat array. -/
def sortedRaster (xl yl : String) (cells : List Cell) (nx : Nat) :
    Nat → Nat → Cell :=
  fun i j => (sortByLe (cellLeYX xl yl) cells).getD (i * nx + j) (fun _ => 0)

/-- Sum of a `cy × cx` combine window of a raster, anchored at output cell
`(i, j)`: the slices `[cy*i, cy*(i+1))` by `[cx*j, cx*(j+1))`. -/
def windowSum (g : Nat → Nat → ℚ) (cy cx i j : Nat) : ℚ :=
  ∑ a in Finset.range cy, ∑ b in Finset.range cx, g (cy * i + a) (cx * j + b)

/-- Weighted combine of one window in `_combine_bins`:
`np.average(values, weights=...)` is the ratio of the windowed sums and
raises `ZeroDivisionError` exactly when the weights sum to zero, which the
code catches and turns into 0. -/
def combineWeighted (g : Nat → Nat → Cell) (l w : String) (cy cx i j : Nat) : ℚ :=
  let wsum := windowSum (fun p q => g p q w) cy cx i j
  if wsum = 0 then 0
  else windowSum (fun p q => g p q l * g p q w) cy cx i j / wsum

/-- Unweighted combine of one window in `_combine_bins`: `np.sum` over the
window. -/
def combinePlain (g : Nat → Nat → Cell) (l : String) (cy cx i j : Nat) : ℚ :=
  windowSum (fun p q => g p q l) cy cx i j

/-- The weight label attached to `l` by the `weights` list; the loop in the
source assigns weighted labels in order, so a repeated label keeps its last
pair. -/
def lastWeightOf (weights : List (String × String)) (l : String) : Option String :=
  (weights.reverse.find? (fun p => p.1 == l)).map (fun p => p.2)

/-- The output raster of `_combine_bins` from `droplets/resample.py`:
coordinate labels carry the meshed downscaled coordinates, weighted labels
the guarded `np.average` of their window, all other labels the window sum
over the sorted, reshaped input. -/
def combineBinsCell (flow : FlowDataR) (numCombine : Nat × Nat) (info : GridInfo)
    (xl yl : String) (weights : List (String × String)) : Nat → Nat → Cell :=
  let g := sortedRaster xl yl flow.cells flow.info.shape.1
  fun i j l =>
    if l = xl then dGridX info i j
    else if l = yl then dGridY info i j
    else
      match lastWeightOf weights l with
      | some w => combineWeighted g l w numCombine.2 numCombine.1 i j
      | none => combinePlain g l numCombine.2 numCombine.1 i j

/-- `ravel` of a `(rows, cols)` raster of cells into the flat row-major list. -/
def ravelCells (f : Nat → Nat → Cell) (rows cols : Nat) : List Cell :=
  (List.range (rows * cols)).map (fun k => f (k / cols) (k % cols))

/-- The flat data list returned by `_combine_bins`. -/
def combineBinsData (flow : FlowDataR) (numCombine : Nat × Nat) (info : GridInfo)
    (xl yl : String) (weights : List (String × String)) : List Cell :=
  ravelCells (combineBinsCell flow numCombine info xl yl weights)
    info.shape.2 info.shape.1

/-- `downsample_flow_data` from `droplets/resample.py`: cut to the limits,
build the downscaled grid info, combine the bins onto it. -/
def downsampleFlowData (flow : FlowDataR) (numCombine : Nat × Nat)
    (xl yl : String) (weights : List (String × String))
    (xlim ylim : Option ℚ × Option ℚ) : FlowDataR :=
  let flow2 := cutSystemLimits flow xlim ylim xl yl
  let info := downscaledGridInfo flow2.info numCombine
  { labels := flow2.labels
    cells := combineBinsData flow2 numCombine info xl yl weights
    info := info }

/-- `_get_superscaled_grid_info` from `droplets/resample.py`: shape times the
factor, spacing divided by it, origin at the minimum observed coordinate per
axis. -/
def superscaledGridInfo (flow : FlowDataR) (f : Nat) (xl yl : String) : GridInfo :=
  let shape := (flow.info.shape.1 * f, flow.info.shape.2 * f)
  { shape := shape
    spacing := (flow.info.spacing.1 / (f : ℚ), flow.info.spacing.2 / (f : ℚ))
    origin := (listMin (flow.cells.map (fun c => c xl)),
               listMin (flow.cells.map (fun c => c yl)))
    numBins := shape.1 * shape.2 }

/-- The x coordinate mesh of `_get_superscaled_grid_coords`. -/
def sGridX (info : GridInfo) (_i j : Nat) : ℚ := info.origin.1 + info.spacing.1 * (j : ℚ)

/-- The y coordinate mesh of `_get_superscaled_grid_coords`. -/
def sGridY (info : GridInfo) (i _j : Nat) : ℚ := info.origin.2 + info.spacing.2 * (i : ℚ)

/-- `_transfer_data_to_finer_grid` from `droplets/resample.py`: every
non-coordinate field of fine cell `(p, q)` receives the value of the coarse
cell whose `factor × factor` block contains it; the coordinate fields receive
the fine meshes. -/
def finerGridCell (g : Nat → Nat → Cell) (info : GridInfo) (f : Nat)
    (xl yl : String) : Nat → Nat → Cell :=
  fun p q l =>
    if l = xl then sGridX info p q
    else if l = yl then sGridY info p q
    else g (p / f) (q / f) l

/-- The in-place loop `data[l] *= data[w]` over the `weights` list at the top
of `_supersample_data_on_grid`, applied in order. -/
def applyWeights (weights : List (String × String)) (g : Nat → Nat → Cell) :
    Nat → Nat → Cell :=
  weights.foldl
    (fun acc lw p q l => if l = lw.1 then acc p q lw.1 * acc p q lw.2 else acc p q l)
    g

/-- Sum of a raster over the index rectangle `[i0, i1) × [j0, j1)`, as a
numpy slice `data[i0:i1, j0:j1]` produces after clamping. -/
def windowSumRect (g : Nat → Nat → ℚ) (i0 i1 j0 j1 : Nat) : ℚ :=
  ∑ p in Finset.Ico i0 i1, ∑ q in Finset.Ico j0 j1, g p q

/-- `_supersample_data_on_grid` from `droplets/resample.py`: after the
in-place multiplication of weighted fields by their weights, every
non-coordinate field of cell `(i, j)` is recomputed over the slice window
`[i-(f-1), i+f) × [j-(f-1), j+f)` (implicitly clamped to the array bounds, as
numpy slicing does): plain fields by `np.mean`, weighted fields by the ratio
of the windowed sums with an explicit zero fallback.  The coordinate fields
keep the values of the pre-mutation copy. -/
def supersampleDataOnGrid (g : Nat → Nat → Cell) (nyf nxf f : Nat)
    (xl yl : String) (weights : List (String × String)) : Nat → Nat → Cell :=
  let gm := applyWeights weights g
  fun i j l =>
    if l = xl ∨ l = yl then g i j l
    else
      let i0 := i - (f - 1)
      let i1 := min (i + (f - 1) + 1) nyf
      let j0 := j - (f - 1)
      let j1 := min (j + (f - 1) + 1) nxf
      match lastWeightOf weights l with
      | some w =>
        let tw := windowSumRect (fun a b => gm a b w) i0 i1 j0 j1
        if tw = 0 then 0
        else windowSumRect (fun a b => gm a b l) i0 i1 j0 j1 / tw
      | none =>
        windowSumRect (fun a b => gm a b l) i0 i1 j0 j1 / (((i1 - i0) * (j1 - j0) : Nat) : ℚ)

/-- `supersample_flow_data` from `droplets/resample.py`: factor `None` or 1
returns a copy; otherwise the input is copied, sorted in place by (y, x),
reshaped to the coarse raster, broadcast to the finer grid and re-averaged on
it. -/
def supersampleFlowData (flow : FlowDataR) (factor : Option Nat)
    (xl yl : String) (weights : List (String × String)) : FlowDataR :=
  match factor with
  | none => flowCopy flow
  | some 1 => flowCopy flow
  | some f =>
    let flow2 := { flowCopy flow with
                   cells := sortByLe (cellLeYX xl yl) (flowCopy flow).cells }
    let info := superscaledGridInfo flow2 f xl yl
    let nxf := info.shape.1
    let nyf := info.shape.2
    let g := fun i j => flow2.cells.getD (i * (nxf / f) + j) (fun _ => 0)
    let fine := finerGridCell g info f xl yl
    let out := supersampleDataOnGrid fine nyf nxf f xl yl weights
    { labels := flow2.labels
      cells := ravelCells out nyf nxf
      info := info }

/-- One record handed to the combined-grid constructor: its two coordinate
arrays. -/
structure CoordRec where
  X : List ℚ
  Y : List ℚ

/-- `np.arange(a, b, s)` over exact rationals: the values `a + k*s` for
`k < ⌈(b - a) / s⌉`. -/
def arange (a b s : ℚ) : List ℚ :=
  (List.range (⌈(b - a) / s⌉.toNat)).map (fun k : Nat => a + (k : ℚ) * s)

/-- The unified grid returned by the grid unifier: its y-major/x-minor shape,
the two coordinate meshes, and the zero-initialized non-coordinate fields. -/
structure CombinedGrid where
  shape : Nat × Nat
  xs : Nat → Nat → ℚ
  ys : Nat → Nat → ℚ
  dataFields : String → Nat → Nat → ℚ

/-- Modelled from the spec: `get_combined_grid` lives in
`droplets/average.py`, which is not under the source tree (only its tests
are).  Per spec section 4.2 and the tests: `ValueError` on an empty record
list; each axis is `arange(min, max + spacing, spacing)` over the global
coordinate extrema; the axes are meshed y-major/x-minor, so the output shape
is `(len(y_axis), len(x_axis))`; all non-coordinate fields are
zero-initialized. -/
def getCombinedGrid (recs : List CoordRec) (dx dy : ℚ) :
    Except String CombinedGrid :=
  match recs with
  | [] => Except.error "no input"
  | r :: rs =>
    let allRecs := r :: rs
    let xmin := listMin (allRecs.map (fun t => listMin t.X))
    let xmax := listMax (allRecs.map (fun t => listMax t.X))
    let ymin := listMin (allRecs.map (fun t => listMin t.Y))
    let ymax := listMax (allRecs.map (fun t => listMax t.Y))
    let xaxis := arange xmin (xmax + dx) dx
    let yaxis := arange ymin (ymax + dy) dy
    Except.ok {
      shape := (yaxis.length, xaxis.length)
      xs := fun _ j => xaxis.getD j 0
      ys := fun i _ => yaxis.getD i 0
      dataFields := fun _ _ _ => 0 }

/-- A heap of numpy arrays: ids map to their cell lists, `next` is the first
unallocated id.  Python-level rebinding never changes the heap; in-place
array operations are `hwrite`s, array-producing numpy calls are `halloc`s. -/
structure Heap where
  mem : Nat → List Cell
  next : Nat

/-- Allocate a fresh array holding `v`, returning its id. -/
def halloc (s : Heap) (v : List Cell) : Nat × Heap :=
  (s.next, { mem := fun i => if i = s.next then v else s.mem i, next := s.next + 1 })

/-- Overwrite the array at id `i` in place. -/
def hwrite (s : Heap) (i : Nat) (v : List Cell) : Heap :=
  { mem := fun j => if j = i then v else s.mem j, next := s.next }

/-- Heap-level trace of `supersample_flow_data`: for factor `None` or 1,
`flow.copy()` allocates a fresh array with the caller's values; otherwise the
copy is sorted in place (`flow.sort()`, an `hwrite` on the copy), the finer
grid is a fresh `np.empty_like` filled by block writes, the in-place
`data[l] *= data[w]` loop writes to it, and the resampled result is a fresh
`data.copy()`.  Returns the result array's id with the final heap. -/
def supersampleHeap (s : Heap) (dataId : Nat) (info : GridInfo)
    (labels : List String) (factor : Option Nat) (xl yl : String)
    (weights : List (String × String)) : Nat × Heap :=
  match factor with
  | none => halloc s (s.mem dataId)
  | some 1 => halloc s (s.mem dataId)
  | some f =>
    let p1 := halloc s (s.mem dataId)
    let s2 := hwrite p1.2 p1.1 (sortByLe (cellLeYX xl yl) (p1.2.mem p1.1))
    let flow2 : FlowDataR := { labels := labels, cells := s2.mem p1.1, info := info }
    let info2 := superscaledGridInfo flow2 f xl yl
    let nxf := info2.shape.1
    let nyf := info2.shape.2
    let g := fun i j => flow2.cells.getD (i * (nxf / f) + j) (fun _ => 0)
    let fine := finerGridCell g info2 f xl yl
    let p2 := halloc s2 (ravelCells fine nyf nxf)
    let s4 := hwrite p2.2 p2.1 (ravelCells (applyWeights weights fine) nyf nxf)
    halloc s4 (ravelCells (supersampleDataOnGrid fine nyf nxf f xl yl weights) nyf nxf)

/-- Heap-level trace of `downsample_flow_data`: `_cut_system_limits` builds
its output by boolean-mask selection (a fresh array); `_combine_bins`
allocates the `np.zeros` container and the `np.sort` copy, writes its results
into the container, and `ravel` plus the `FlowData` constructor produce the
fresh result. -/
def downsampleHeap (s : Heap) (dataId : Nat) (info : GridInfo)
    (labels : List String) (numCombine : Nat × Nat) (xl yl : String)
    (weights : List (String × String)) (xlim ylim : Option ℚ × Option ℚ) :
    Nat × Heap :=
  let cutCells := (s.mem dataId).filter
    (fun c => inLims xlim (c xl) && inLims ylim (c yl))
  let p1 := halloc s cutCells
  let flow2 : FlowDataR := { labels := labels, cells := p1.2.mem p1.1, info := info }
  let flow3 := cutSystemLimits flow2 (none, none) (none, none) xl yl
  let dinfo := downscaledGridInfo flow3.info numCombine
  let p2 := halloc p1.2 (ravelCells (fun _ _ => fun _ => 0) dinfo.shape.2 dinfo.shape.1)
  let p3 := halloc p2.2 (sortByLe (cellLeYX xl yl) (p2.2.mem p1.1))
  let s4 := hwrite p3.2 p2.1 (combineBinsData flow3 numCombine dinfo xl yl weights)
  halloc s4 (s4.mem p2.1)

/-- Read the simple-format map stored at one heap array. -/
def mapOfCells (cells : List Cell) : SimpleMap :=
  { X := fun i => (cells.getD i (fun _ => 0)) "X"
    Y := fun i => (cells.getD i (fun _ => 0)) "Y"
    M := fun i => (cells.getD i (fun _ => 0)) "M"
    N := fun i => (cells.getD i (fun _ => 0)) "N"
    T := fun i => (cells.getD i (fun _ => 0)) "T"
    U := fun i => (cells.getD i (fun _ => 0)) "U"
    V := fun i => (cells.getD i (fun _ => 0)) "V" }

/-- Store a simple-format map of `n` bins as a cell list. -/
def cellsOfMap (m : SimpleMap) (n : Nat) : List Cell :=
  (List.range n).map (fun i l =>
    if l = "X" then m.X i else if l = "Y" then m.Y i
    else if l = "M" then m.M i else if l = "N" then m.N i
    else if l = "T" then m.T i else if l = "U" then m.U i
    else if l = "V" then m.V i else 0)

/-- Heap-level trace of `average_data`: the input maps are only read
(`np.mean`, `np.sum`, `*` and `np.nan_to_num` all produce new arrays); on
success one fresh record holds the averaged output, on a mismatch the raised
`ValueError` leaves no output behind. -/
def averageDataHeap (s : Heap) (ids : List Nat) (n : Nat) (atol rtol : ℚ) :
    Option Nat × Heap :=
  match averageData n atol rtol (ids.map (fun i => mapOfCells (s.mem i))) with
  | Except.error _ => (none, s)
  | Except.ok none => (none, s)
  | Except.ok (some out) =>
    let p := halloc s (cellsOfMap out n)
    (some p.1, p.2)

/-- A concrete simple-format map with constant fields, used to instantiate
the general theorems on explicit inputs. -/
def cMapA : SimpleMap :=
  { X := fun _ => 0, Y := fun _ => 0, M := fun _ => 2, N := fun _ => 1
    T := fun _ => 10, U := fun _ => 3, V := fun _ => 7 }

/-- A second concrete simple-format map sharing `cMapA`'s coordinates. -/
def cMapB : SimpleMap :=
  { X := fun _ => 0, Y := fun _ => 0, M := fun _ => 4, N := fun _ => 3
    T := fun _ => 20, U := fun _ => 5, V := fun _ => 1 }

/-- A concrete map whose coordinates do not match `cMapA`'s. -/
def cMapFar : SimpleMap :=
  { X := fun _ => 10, Y := fun _ => 0, M := fun _ => 1, N := fun _ => 1
    T := fun _ => 1, U := fun _ => 1, V := fun _ => 1 }

/-- A concrete map with all weights (`M` and `N`) zero everywhere. -/
def cMapZ : SimpleMap :=
  { X := fun _ => 0, Y := fun _ => 0, M := fun _ => 0, N := fun _ => 0
    T := fun _ => 8, U := fun _ => 9, V := fun _ => 4 }

/-- A concrete cell of a three-field (`X`, `Y`, `C`) structured array; all
other labels read 0. -/
def mkCell (x y v : ℚ) : Cell :=
  fun l => if l = "X" then x else if l = "Y" then y else if l = "C" then v else 0

/-- A concrete 2 × 2 flow record on the unit lattice. -/
def flowEx : FlowDataR :=
  { labels := ["X", "Y", "C"]
    cells := [mkCell 0 0 1, mkCell 1 0 2, mkCell 0 1 3, mkCell 1 1 4]
    info := { spacing := (1, 1), shape := (2, 2), origin := (0, 0), numBins := 4 } }

/-- A concrete grid-info record of shape (8, 6) at unit spacing. -/
def gInfoEx : GridInfo :=
  { spacing := (1, 1), shape := (8, 6), origin := (0, 0), numBins := 48 }

/-- Coordinate record of a 2 × 2 grid spanning [0,1] × [0,1]. -/
def recA : CoordRec := { X := [0, 1, 0, 1], Y := [0, 0, 1, 1] }

/-- Coordinate record of a 2 × 2 grid spanning [2,3] × [2,3]. -/
def recB : CoordRec := { X := [2, 3, 2, 3], Y := [2, 2, 3, 3] }

/-- A concrete one-array heap whose array 0 holds one cell. -/
def hEx : Heap := { mem := fun _ => [mkCell 0 0 5], next := 1 }

lemma framesSum_eq_zero (ds : List SimpleMap) (f : SimpleMap → Nat → ℚ) (i : Nat)
    (h : ∀ d ∈ ds, f d i = 0) : framesSum ds f i = 0 := by
  unfold framesSum
  apply List.sum_eq_zero
  intro x hx
  obtain ⟨d, hd, rfl⟩ := List.mem_map.mp hx
  exact h d hd

lemma divNanToNum_of_ne (a b : ℚ) (hb : b ≠ 0) : divNanToNum a b = a / b := by
  simp [divNanToNum, hb]

lemma divNanToNum_zero_zero : divNanToNum 0 0 = 0 := by
  simp [divNanToNum]

/-- C10: called with zero input maps, `average_data` returns the empty dict
and raises no error. -/
theorem averageData_empty_input (n : Nat) (atol rtol : ℚ) :
    averageData n atol rtol [] = Except.ok none := rfl

/-- C6: `average_data` raises `ValueError` exactly when some later map's `X`
or `Y` coordinates fail the `np.isclose` tolerance check against the first
map's; when all coordinates agree within tolerance it returns a record whose
`X` and `Y` fields are exactly the first map's arrays. -/
theorem averageData_mismatch_iff (n : Nat) (atol rtol : ℚ) (first : SimpleMap)
    (rest : List SimpleMap) :
    (averageData n atol rtol (first :: rest) = Except.error coordMismatchMsg ↔
      ∃ d ∈ rest, ∃ i < n,
        ¬ npIsClose atol rtol (first.X i) (d.X i) ∨
        ¬ npIsClose atol rtol (first.Y i) (d.Y i)) ∧
    (¬ (∃ d ∈ rest, ∃ i < n,
        ¬ npIsClose atol rtol (first.X i) (d.X i) ∨
        ¬ npIsClose atol rtol (first.Y i) (d.Y i)) →
      ∃ out, averageData n atol rtol (first :: rest) = Except.ok (some out) ∧
        out.X = first.X ∧ out.Y = first.Y) := by
  have hkey : (rest.all (fun d => coordsMatch n atol rtol first d) = true) ↔
      ¬ ∃ d ∈ rest, ∃ i < n,
        ¬ npIsClose atol rtol (first.X i) (d.X i) ∨
        ¬ npIsClose atol rtol (first.Y i) (d.Y i) := by
    rw [List.all_eq_true]
    constructor
    · rintro hall ⟨d, hd, i, hi, hbad⟩
      have hm := hall d hd
      simp only [coordsMatch, decide_eq_true_eq] at hm
      rcases hbad with h1 | h1
      · exact h1 (hm i hi).1
      · exact h1 (hm i hi).2
    · intro hno d hd
      simp only [coordsMatch, decide_eq_true_eq]
      intro i hi
      constructor
      · by_contra hc
        exact hno ⟨d, hd, i, hi, Or.inl hc⟩
      · by_contra hc
        exact hno ⟨d, hd, i, hi, Or.inr hc⟩
  constructor
  · constructor
    · intro herr
      by_contra hno
      have hall := hkey.mpr hno
      simp [averageData, hall] at herr
    · intro hex
      have hall : rest.all (fun d => coordsMatch n atol rtol first d) = false := by
        by_contra hc
        rw [Bool.not_eq_false] at hc
        exact (hkey.mp hc) hex
      simp [averageData, hall]
  · intro hno
    have hall := hkey.mpr hno
    exact ⟨averagedMap first (first :: rest), by simp [averageData, hall], rfl, rfl⟩

/-- Closed instance of C6: a map displaced by 10 in `X` trips the mismatch
error at the default tolerances, and matching maps pass through with the
first map's coordinates. -/
theorem averageData_mismatch_iff_witness :
    averageData 1 (1/1000) (1/100000) [cMapA, cMapFar] = Except.error coordMismatchMsg ∧
    ∃ out, averageData 1 (1/1000) (1/100000) [cMapA, cMapB] = Except.ok (some out) ∧
      out.X = cMapA.X ∧ out.Y = cMapA.Y := by
  constructor
  · exact (averageData_mismatch_iff 1 (1/1000) (1/100000) cMapA [cMapFar]).1.mpr
      ⟨cMapFar, by simp, 0, by norm_num,
        Or.inl (by simp only [cMapA, cMapFar, npIsClose]; norm_num)⟩
  · exact (averageData_mismatch_iff 1 (1/1000) (1/100000) cMapA [cMapB]).2
      (by
        rintro ⟨d, hd, i, _, hbad⟩
        simp only [List.mem_singleton] at hd
        subst hd
        rcases hbad with h1 | h1
        · exact h1 (by simp only [cMapA, cMapB, npIsClose]; norm_num)
        · exact h1 (by simp only [cMapA, cMapB, npIsClose]; norm_num))

/-- C5: with agreeing coordinates, `average_data` returns `M` and `N` as
arithmetic means across the maps, `U` and `V` as mass-weighted ratios of
frame sums, and `T` as the number-weighted ratio, whenever the respective
weight sums are nonzero. -/
theorem averageData_weighted_formulas (n : Nat) (atol rtol : ℚ) (first : SimpleMap)
    (rest : List SimpleMap)
    (hmatch : ∀ d ∈ rest, coordsMatch n atol rtol first d = true) :
    averageData n atol rtol (first :: rest) =
      Except.ok (some (averagedMap first (first :: rest))) ∧
    (∀ i, (averagedMap first (first :: rest)).M i =
      framesSum (first :: rest) (fun d => d.M) i / ((first :: rest).length : ℚ)) ∧
    (∀ i, (averagedMap first (first :: rest)).N i =
      framesSum (first :: rest) (fun d => d.N) i / ((first :: rest).length : ℚ)) ∧
    (∀ i, framesSum (first :: rest) (fun d => d.M) i ≠ 0 →
      (averagedMap first (first :: rest)).U i =
        framesSum (first :: rest) (fun d j => d.U j * d.M j) i /
          framesSum (first :: rest) (fun d => d.M) i) ∧
    (∀ i, framesSum (first :: rest) (fun d => d.M) i ≠ 0 →
      (averagedMap first (first :: rest)).V i =
        framesSum (first :: rest) (fun d j => d.V j * d.M j) i /
          framesSum (first :: rest) (fun d => d.M) i) ∧
    (∀ i, framesSum (first :: rest) (fun d => d.N) i ≠ 0 →
      (averagedMap first (first :: rest)).T i =
        framesSum (first :: rest) (fun d j => d.T j * d.N j) i /
          framesSum (first :: rest) (fun d => d.N) i) := by
  refine ⟨by simp [averageData, List.all_eq_true.mpr hmatch], fun i => rfl, fun i => rfl,
    ?_, ?_, ?_⟩
  · intro i h
    exact divNanToNum_of_ne _ _ h
  · intro i h
    exact divNanToNum_of_ne _ _ h
  · intro i h
    exact divNanToNum_of_ne _ _ h

/-- Closed instance of C5 on two concrete maps: means 3 and 2 for `M`, `N`;
mass-weighted `U` is 13/3; number-weighted `T` is 35/2. -/
theorem averageData_weighted_formulas_witness :
    averageData 1 (1/1000) (1/100000) [cMapA, cMapB] =
      Except.ok (some (averagedMap cMapA [cMapA, cMapB])) ∧
    (averagedMap cMapA [cMapA, cMapB]).M 0 = 3 ∧
    (averagedMap cMapA [cMapA, cMapB]).U 0 = 13/3 ∧
    (averagedMap cMapA [cMapA, cMapB]).T 0 = 35/2 := by
  have hmatch : ∀ d ∈ [cMapB], coordsMatch 1 (1/1000) (1/100000) cMapA d = true := by
    intro d hd
    simp only [List.mem_singleton] at hd
    subst hd
    simp only [coordsMatch, decide_eq_true_eq]
    intro i _
    constructor <;> (simp only [cMapA, cMapB, npIsClose]; norm_num)
  obtain ⟨hok, hM, _, hU, _, hT⟩ :=
    averageData_weighted_formulas 1 (1/1000) (1/100000) cMapA [cMapB] hmatch
  refine ⟨hok, ?_, ?_, ?_⟩
  · rw [hM 0]
    with_unfolding_all rfl
  · rw [hU 0 (by with_unfolding_all decide)]
    with_unfolding_all rfl
  · rw [hT 0 (by with_unfolding_all decide)]
    with_unfolding_all rfl

lemma windowSum_zero (g : Nat → Nat → ℚ) (cy cx i j : Nat)
    (h : ∀ a < cy, ∀ b < cx, g (cy * i + a) (cx * j + b) = 0) :
    windowSum g cy cx i j = 0 := by
  unfold windowSum
  apply Finset.sum_eq_zero
  intro a ha
  apply Finset.sum_eq_zero
  intro b hb
  exact h a (Finset.mem_range.mp ha) b (Finset.mem_range.mp hb)

lemma windowSumRect_zero (g : Nat → Nat → ℚ) (i0 i1 j0 j1 : Nat)
    (h : ∀ p q, g p q = 0) : windowSumRect g i0 i1 j0 j1 = 0 := by
  unfold windowSumRect
  apply Finset.sum_eq_zero
  intro p _
  apply Finset.sum_eq_zero
  intro q _
  exact h p q

lemma applyWeights_single (l w : String) (g : Nat → Nat → Cell) (p q : Nat)
    (m : String) :
    applyWeights [(l, w)] g p q m = if m = l then g p q l * g p q w else g p q m := rfl

/-- C1: at each of the three averaging/combining sites — frame averaging,
bin combining, supersampling — a window or cell whose contributing weights
are all zero produces the output value 0 for the weighted field; the zero
weight sum raises no error (frame averaging still returns its record). -/
theorem zero_weight_sum_outputs_zero :
    (∀ (n : Nat) (atol rtol : ℚ) (first : SimpleMap) (rest : List SimpleMap),
      (∀ d ∈ rest, coordsMatch n atol rtol first d = true) →
      averageData n atol rtol (first :: rest) =
        Except.ok (some (averagedMap first (first :: rest))) ∧
      ∀ i, ((∀ d ∈ first :: rest, d.M i = 0) →
              (averagedMap first (first :: rest)).U i = 0 ∧
              (averagedMap first (first :: rest)).V i = 0) ∧
           ((∀ d ∈ first :: rest, d.N i = 0) →
              (averagedMap first (first :: rest)).T i = 0)) ∧
    (∀ (g : Nat → Nat → Cell) (l w : String) (cy cx i j : Nat),
      (∀ a < cy, ∀ b < cx, g (cy * i + a) (cx * j + b) w = 0) →
      combineWeighted g l w cy cx i j = 0) ∧
    (∀ (g : Nat → Nat → Cell) (nyf nxf f : Nat) (xl yl l w : String) (i j : Nat),
      l ≠ xl → l ≠ yl → w ≠ l → (∀ a b, g a b w = 0) →
      supersampleDataOnGrid g nyf nxf f xl yl [(l, w)] i j l = 0) := by
  refine ⟨?_, ?_, ?_⟩
  · intro n atol rtol first rest hmatch
    refine ⟨by simp [averageData, List.all_eq_true.mpr hmatch], ?_⟩
    intro i
    constructor
    · intro hM
      have hden : framesSum (first :: rest) (fun d => d.M) i = 0 :=
        framesSum_eq_zero _ _ _ hM
      have hnumU : framesSum (first :: rest) (fun d j => d.U j * d.M j) i = 0 :=
        framesSum_eq_zero _ _ _ (fun d hd => by rw [hM d hd, mul_zero])
      have hnumV : framesSum (first :: rest) (fun d j => d.V j * d.M j) i = 0 :=
        framesSum_eq_zero _ _ _ (fun d hd => by rw [hM d hd, mul_zero])
      constructor
      · show divNanToNum _ _ = 0
        rw [hnumU, hden]
        exact divNanToNum_zero_zero
      · show divNanToNum _ _ = 0
        rw [hnumV, hden]
        exact divNanToNum_zero_zero
    · intro hN
      have hden : framesSum (first :: rest) (fun d => d.N) i = 0 :=
        framesSum_eq_zero _ _ _ hN
      have hnum : framesSum (first :: rest) (fun d j => d.T j * d.N j) i = 0 :=
        framesSum_eq_zero _ _ _ (fun d hd => by rw [hN d hd, mul_zero])
      show divNanToNum _ _ = 0
      rw [hnum, hden]
      exact divNanToNum_zero_zero
  · intro g l w cy cx i j h
    have hz := windowSum_zero (fun p q => g p q w) cy cx i j h
    simp [combineWeighted, hz]
  · intro g nyf nxf f xl yl l w i j hlx hly hwl h0
    have hlw : lastWeightOf [(l, w)] l = some w := by simp [lastWeightOf]
    have hres : ∀ a b, applyWeights [(l, w)] g a b w = 0 := by
      intro a b
      rw [applyWeights_single, if_neg hwl]
      exact h0 a b
    have htw := windowSumRect_zero (fun a b => applyWeights [(l, w)] g a b w)
      (i - (f - 1)) (min (i + (f - 1) + 1) nyf)
      (j - (f - 1)) (min (j + (f - 1) + 1) nxf) hres
    simp [supersampleDataOnGrid, hlw, hlx, hly, htw]

/-- Closed instances of C1: a single all-zero-mass frame averages `U` to 0;
a combine window with zero weights outputs 0; a supersample cell with zero
weights outputs 0. -/
theorem zero_weight_sum_outputs_zero_witness :
    (averagedMap cMapZ [cMapZ]).U 0 = 0 ∧
    combineWeighted (fun _ _ => mkCell 0 0 1) "C" "W" 1 1 0 0 = 0 ∧
    supersampleDataOnGrid (fun _ _ => mkCell 0 0 1) 2 2 2 "X" "Y" [("C", "W")]
      0 0 "C" = 0 := by
  obtain ⟨h1, h2, h3⟩ := zero_weight_sum_outputs_zero
  refine ⟨?_, ?_, ?_⟩
  · have := (((h1 1 (1/1000) (1/100000) cMapZ [] (by simp)).2 0).1
      (by intro d hd; simp only [List.mem_singleton] at hd; subst hd; rfl))
    exact this.1
  · exact h2 (fun _ _ => mkCell 0 0 1) "C" "W" 1 1 0 0
      (fun a _ b _ => by with_unfolding_all rfl)
  · exact h3 (fun _ _ => mkCell 0 0 1) 2 2 2 "X" "Y" "C" "W" 0 0
      (by decide) (by decide) (by decide) (fun a b => by with_unfolding_all rfl)

/-- C2: downsampling multiplies the spacing by the combine factor per axis,
floors the shape quotient (so trailing bins that do not fill a complete
combined cell are dropped: every combine window stays below the old shape,
windows cover a prefix anchored at the origin), and shifts the origin by
half the spacing difference; `downsample_flow_data` installs exactly this
metadata, computed after the cut step. -/
theorem downsample_grid_metadata (info : GridInfo) (cx cy : Nat) :
    (downscaledGridInfo info (cx, cy)).spacing =
      (info.spacing.1 * (cx : ℚ), info.spacing.2 * (cy : ℚ)) ∧
    (downscaledGridInfo info (cx, cy)).shape =
      (info.shape.1 / cx, info.shape.2 / cy) ∧
    (downscaledGridInfo info (cx, cy)).origin =
      (info.origin.1 + (1/2) * (info.spacing.1 * (cx : ℚ) - info.spacing.1),
       info.origin.2 + (1/2) * (info.spacing.2 * (cy : ℚ) - info.spacing.2)) ∧
    (∀ (flow : FlowDataR) (xl yl : String) (weights : List (String × String))
       (xlim ylim : Option ℚ × Option ℚ),
      (downsampleFlowData flow (cx, cy) xl yl weights xlim ylim).info =
        downscaledGridInfo (cutSystemLimits flow xlim ylim xl yl).info (cx, cy)) ∧
    (∀ j < info.shape.1 / cx, ∀ b < cx, cx * j + b < info.shape.1) ∧
    (∀ i < info.shape.2 / cy, ∀ a < cy, cy * i + a < info.shape.2) := by
  refine ⟨rfl, rfl, rfl, fun _ _ _ _ _ _ => rfl, ?_, ?_⟩
  · intro j hj b hb
    have h1 : cx * j + b < cx * (j + 1) := by rw [Nat.mul_succ]; omega
    have h2 : cx * (j + 1) ≤ cx * (info.shape.1 / cx) :=
      Nat.mul_le_mul_left cx (Nat.succ_le_of_lt hj)
    have h3 : cx * (info.shape.1 / cx) ≤ info.shape.1 := by
      rw [Nat.mul_comm]
      exact Nat.div_mul_le_self _ _
    exact lt_of_lt_of_le h1 (le_trans h2 h3)
  · intro i hi a ha
    have h1 : cy * i + a < cy * (i + 1) := by rw [Nat.mul_succ]; omega
    have h2 : cy * (i + 1) ≤ cy * (info.shape.2 / cy) :=
      Nat.mul_le_mul_left cy (Nat.succ_le_of_lt hi)
    have h3 : cy * (info.shape.2 / cy) ≤ info.shape.2 := by
      rw [Nat.mul_comm]
      exact Nat.div_mul_le_self _ _
    exact lt_of_lt_of_le h1 (le_trans h2 h3)

/-- Closed instance of C2: combining shape (8, 6) at unit spacing by factors
(2, 1) yields shape (4, 6), spacing (2, 1), origin (1/2, 0), and the last
covered window index 2*3+1 stays below the old shape 8. -/
theorem downsample_grid_metadata_witness :
    (downscaledGridInfo gInfoEx (2, 1)).shape = (4, 6) ∧
    (downscaledGridInfo gInfoEx (2, 1)).spacing = (2, 1) ∧
    (downscaledGridInfo gInfoEx (2, 1)).origin = (1/2, 0) ∧
    2 * 3 + 1 < gInfoEx.shape.1 := by
  obtain ⟨hsp, hsh, hor, _, htr, _⟩ := downsample_grid_metadata gInfoEx 2 1
  refine ⟨?_, ?_, ?_, htr 3 (by decide) 1 (by decide)⟩
  · rw [hsh]
    with_unfolding_all rfl
  · rw [hsp]
    with_unfolding_all rfl
  · rw [hor]
    with_unfolding_all rfl

lemma sum_range_mul_eq (c m : Nat) (f : Nat → ℚ) :
    ∑ p in Finset.range (c * m), f p =
      ∑ i in Finset.range m, ∑ a in Finset.range c, f (c * i + a) := by
  induction m with
  | zero => simp
  | succ m ih =>
    rw [Nat.mul_succ, Finset.sum_range_add, ih, Finset.sum_range_succ]

lemma windowSum_conservation (g : Nat → Nat → ℚ) (cy cx ny nx : Nat) :
    ∑ i in Finset.range ny, ∑ j in Finset.range nx, windowSum g cy cx i j =
      ∑ p in Finset.range (cy * ny), ∑ q in Finset.range (cx * nx), g p q := by
  rw [sum_range_mul_eq cy ny (fun p => ∑ q in Finset.range (cx * nx), g p q)]
  simp only [windowSum]
  refine Finset.sum_congr rfl fun i _ => ?_
  rw [Finset.sum_comm]
  refine Finset.sum_congr rfl fun a _ => ?_
  exact (sum_range_mul_eq cx nx _).symm

/-- C3: in `_combine_bins` a field that is neither a coordinate nor weighted
gets, in each output cell, the sum of its `cx × cy` source window over the
sorted y-major/x-minor raster; the flat output has one entry per combined
cell (the product of the combined shape); and the total over all output
cells equals the total over the covered source prefix — the conservation of
extensive fields. -/
theorem combine_bins_extensive (flow : FlowDataR) (cx cy : Nat) (info : GridInfo)
    (xl yl : String) (weights : List (String × String)) (l : String)
    (hlx : l ≠ xl) (hly : l ≠ yl) (hlw : lastWeightOf weights l = none) :
    (∀ i j, combineBinsCell flow (cx, cy) info xl yl weights i j l =
      windowSum (fun p q => sortedRaster xl yl flow.cells flow.info.shape.1 p q l)
        cy cx i j) ∧
    (combineBinsData flow (cx, cy) info xl yl weights).length =
      info.shape.1 * info.shape.2 ∧
    (∑ i in Finset.range info.shape.2, ∑ j in Finset.range info.shape.1,
       combineBinsCell flow (cx, cy) info xl yl weights i j l) =
      ∑ p in Finset.range (cy * info.shape.2), ∑ q in Finset.range (cx * info.shape.1),
        sortedRaster xl yl flow.cells flow.info.shape.1 p q l := by
  have hcell : ∀ i j, combineBinsCell flow (cx, cy) info xl yl weights i j l =
      windowSum (fun p q => sortedRaster xl yl flow.cells flow.info.shape.1 p q l)
        cy cx i j := by
    intro i j
    simp [combineBinsCell, hlx, hly, hlw, combinePlain]
  refine ⟨hcell, ?_, ?_⟩
  · simp [combineBinsData, ravelCells, Nat.mul_comm]
  · simp only [hcell]
    exact windowSum_conservation _ cy cx _ _

/-- Closed instance of C3 on a 2 × 2 grid combined by (2, 1): the first
output cell sums its row window to 3, the output holds 2 bins, and the total
10 is conserved. -/
theorem combine_bins_extensive_witness :
    combineBinsCell flowEx (2, 1) (downscaledGridInfo flowEx.info (2, 1))
      "X" "Y" [] 0 0 "C" = 3 ∧
    (combineBinsData flowEx (2, 1) (downscaledGridInfo flowEx.info (2, 1))
      "X" "Y" []).length = 2 ∧
    (∑ i in Finset.range (downscaledGridInfo flowEx.info (2, 1)).shape.2,
       ∑ j in Finset.range (downscaledGridInfo flowEx.info (2, 1)).shape.1,
       combineBinsCell flowEx (2, 1) (downscaledGridInfo flowEx.info (2, 1))
         "X" "Y" [] i j "C") = 10 := by
  obtain ⟨hc, hlen, hcons⟩ := combine_bins_extensive flowEx 2 1
    (downscaledGridInfo flowEx.info (2, 1)) "X" "Y" [] "C"
    (by decide) (by decide) rfl
  refine ⟨?_, ?_, ?_⟩
  · rw [hc 0 0]
    simp only [windowSum, sortedRaster, flowEx, Finset.sum_range_succ, Finset.sum_range_zero]
    with_unfolding_all rfl
  · rw [hlen]
    with_unfolding_all rfl
  · rw [hcons]
    simp only [sortedRaster, flowEx, Finset.sum_range_succ, Finset.sum_range_zero]
    with_unfolding_all rfl

lemma insertLe_perm {α : Type} (le : α → α → Bool) (a : α) (xs : List α) :
    (insertLe le a xs).Perm (a :: xs) := by
  induction xs with
  | nil => exact List.Perm.refl _
  | cons b bs ih =>
    unfold insertLe
    by_cases h : le a b
    · rw [if_pos h]
    · rw [if_neg h]
      exact (ih.cons b).trans (List.Perm.swap a b bs)

lemma sortByLe_perm {α : Type} (le : α → α → Bool) (xs : List α) :
    (sortByLe le xs).Perm xs := by
  induction xs with
  | nil => exact List.Perm.refl _
  | cons a as ih => exact (insertLe_perm le a (sortByLe le as)).trans (ih.cons a)

lemma foldl_min_le_init (xs : List ℚ) (init : ℚ) : xs.foldl min init ≤ init := by
  induction xs generalizing init with
  | nil => exact le_refl _
  | cons a as ih =>
    exact le_trans (ih (min init a)) (min_le_left _ _)

lemma foldl_min_le_mem (xs : List ℚ) (init a : ℚ) (ha : a ∈ xs) :
    xs.foldl min init ≤ a := by
  induction xs generalizing init with
  | nil => simp at ha
  | cons b bs ih =>
    rcases List.mem_cons.mp ha with rfl | hmem
    · exact le_trans (foldl_min_le_init bs _) (min_le_right _ _)
    · exact ih _ hmem

lemma foldl_min_mem_or (xs : List ℚ) (init : ℚ) :
    xs.foldl min init = init ∨ xs.foldl min init ∈ xs := by
  induction xs generalizing init with
  | nil => exact Or.inl rfl
  | cons b bs ih =>
    rcases ih (min init b) with h | h
    · rw [List.foldl_cons, h]
      rcases le_total init b with hib | hbi
      · exact Or.inl (min_eq_left hib)
      · right
        rw [min_eq_right hbi]
        exact List.mem_cons_self b bs
    · exact Or.inr (List.mem_cons_of_mem b h)

lemma listMin_is_min (xs : List ℚ) (hne : xs ≠ []) :
    listMin xs ∈ xs ∧ ∀ a ∈ xs, listMin xs ≤ a := by
  constructor
  · rcases foldl_min_mem_or xs (xs.headD 0) with h | h
    · rw [listMin, h]
      cases xs with
      | nil => exact absurd rfl hne
      | cons x xs => exact List.mem_cons_self x xs
    · exact h
  · intro a ha
    exact foldl_min_le_mem xs _ a ha

lemma listMin_perm (xs ys : List ℚ) (h : xs.Perm ys) (hne : xs ≠ []) :
    listMin xs = listMin ys := by
  have hne2 : ys ≠ [] := by
    intro hy
    subst hy
    exact hne h.eq_nil
  obtain ⟨hm1, hle1⟩ := listMin_is_min xs hne
  obtain ⟨hm2, hle2⟩ := listMin_is_min ys hne2
  exact le_antisymm (hle1 _ (h.mem_iff.mpr hm2)) (hle2 _ (h.mem_iff.mp hm1))

lemma ravelCells_getD (f : Nat → Nat → Cell) (rows cols i j : Nat)
    (hi : i < rows) (hj : j < cols) :
    (ravelCells f rows cols).getD (i * cols + j) (fun _ => 0) = f i j := by
  have hc : 0 < cols := Nat.lt_of_le_of_lt (Nat.zero_le j) hj
  have hk : i * cols + j < rows * cols := by
    have h1 : i * cols + j < (i + 1) * cols := by
      rw [Nat.succ_mul]
      omega
    have h2 : (i + 1) * cols ≤ rows * cols :=
      Nat.mul_le_mul_right cols (Nat.succ_le_of_lt hi)
    exact lt_of_lt_of_le h1 h2
  unfold ravelCells
  rw [List.getD_eq_getElem?_getD, List.getElem?_map, List.getElem?_range hk]
  have hdiv : (i * cols + j) / cols = i := by
    rw [Nat.add_comm, Nat.add_mul_div_right _ _ hc, Nat.div_eq_of_lt hj]
    omega
  have hmod : (i * cols + j) % cols = j := by
    rw [Nat.add_comm, Nat.add_mul_mod_self_right]
    exact Nat.mod_eq_of_lt hj
  simp [hdiv, hmod]

lemma lastWeightOf_single_ne (l w m : String) (h : m ≠ l) :
    lastWeightOf [(l, w)] m = none := by
  have hb : (l == m) = false := beq_eq_false_iff_ne.mpr (Ne.symm h)
  simp [lastWeightOf, List.find?, hb]

/-- C4: `supersample_flow_data` with factor `f > 1` multiplies the shape by
`f` and divides the spacing by `f` per axis and sets the origin to the
minimum observed coordinate per axis; its data is the ravel of the
re-averaging of the broadcast finer grid; the broadcast gives every fine
cell of an `f × f` block its coarse cell's value for every non-coordinate
field; re-averaging uses the centered window `[i-(f-1), i+f)` clamped to the
grid per axis (full size `2f - 1` away from the boundary): plain fields get
the arithmetic mean over the window, the weighted field the ratio of
windowed sums of value*weight and weight, zero when the weight sum is zero. -/
theorem supersample_pipeline (flow : FlowDataR) (f : Nat) (xl yl l w : String)
    (hf : 1 < f) (hwl : w ≠ l) (hne : flow.cells ≠ []) :
    ((supersampleFlowData flow (some f) xl yl [(l, w)]).info.shape =
      (flow.info.shape.1 * f, flow.info.shape.2 * f) ∧
     (supersampleFlowData flow (some f) xl yl [(l, w)]).info.spacing =
      (flow.info.spacing.1 / (f : ℚ), flow.info.spacing.2 / (f : ℚ)) ∧
     (supersampleFlowData flow (some f) xl yl [(l, w)]).info.origin =
      (listMin (flow.cells.map (fun c => c xl)),
       listMin (flow.cells.map (fun c => c yl)))) ∧
    (supersampleFlowData flow (some f) xl yl [(l, w)]).cells =
      ravelCells
        (supersampleDataOnGrid
          (finerGridCell (sortedRaster xl yl flow.cells flow.info.shape.1)
            (superscaledGridInfo
              { flow with cells := sortByLe (cellLeYX xl yl) flow.cells } f xl yl)
            f xl yl)
          (flow.info.shape.2 * f) (flow.info.shape.1 * f) f xl yl [(l, w)])
        (flow.info.shape.2 * f) (flow.info.shape.1 * f) ∧
    (∀ (g : Nat → Nat → Cell) (info2 : GridInfo) (a b da db : Nat) (m : String),
      da < f → db < f → m ≠ xl → m ≠ yl →
      finerGridCell g info2 f xl yl (a * f + da) (b * f + db) m = g a b m) ∧
    (∀ (g : Nat → Nat → Cell) (nyf nxf i j : Nat) (m : String),
      m ≠ xl → m ≠ yl → m ≠ l →
      supersampleDataOnGrid g nyf nxf f xl yl [(l, w)] i j m =
        windowSumRect (fun a b => g a b m)
          (i - (f - 1)) (min (i + f) nyf) (j - (f - 1)) (min (j + f) nxf) /
        (((min (i + f) nyf - (i - (f - 1))) *
          (min (j + f) nxf - (j - (f - 1))) : Nat) : ℚ)) ∧
    (∀ (g : Nat → Nat → Cell) (nyf nxf i j : Nat),
      l ≠ xl → l ≠ yl →
      supersampleDataOnGrid g nyf nxf f xl yl [(l, w)] i j l =
        (if windowSumRect (fun a b => g a b w)
              (i - (f - 1)) (min (i + f) nyf) (j - (f - 1)) (min (j + f) nxf) = 0
         then 0
         else windowSumRect (fun a b => g a b l * g a b w)
              (i - (f - 1)) (min (i + f) nyf) (j - (f - 1)) (min (j + f) nxf) /
            windowSumRect (fun a b => g a b w)
              (i - (f - 1)) (min (i + f) nyf) (j - (f - 1)) (min (j + f) nxf))) ∧
    (∀ n i : Nat, f - 1 ≤ i → i + f ≤ n → min (i + f) n - (i - (f - 1)) = 2 * f - 1) := by
  obtain ⟨k, rfl⟩ : ∃ k, f = k + 2 := ⟨f - 2, by omega⟩
  have hdiv : flow.info.shape.1 * (k + 2) / (k + 2) = flow.info.shape.1 :=
    Nat.mul_div_cancel _ (by omega)
  have hsne : sortByLe (cellLeYX xl yl) flow.cells ≠ [] := by
    intro hs
    have hp := sortByLe_perm (cellLeYX xl yl) flow.cells
    rw [hs] at hp
    exact hne hp.symm.eq_nil
  refine ⟨⟨rfl, rfl, ?_⟩, ?_, ?_, ?_, ?_, ?_⟩
  · show (listMin ((sortByLe (cellLeYX xl yl) flow.cells).map (fun c => c xl)),
          listMin ((sortByLe (cellLeYX xl yl) flow.cells).map (fun c => c yl))) = _
    rw [listMin_perm _ _ ((sortByLe_perm (cellLeYX xl yl) flow.cells).map (fun c => c xl))
          (by simpa using hsne),
        listMin_perm _ _ ((sortByLe_perm (cellLeYX xl yl) flow.cells).map (fun c => c yl))
          (by simpa using hsne)]
  · show ravelCells
        (supersampleDataOnGrid
          (finerGridCell
            (fun i j => (sortByLe (cellLeYX xl yl) flow.cells).getD
              (i * (flow.info.shape.1 * (k + 2) / (k + 2)) + j) (fun _ => 0))
            (superscaledGridInfo
              { flow with cells := sortByLe (cellLeYX xl yl) flow.cells } (k + 2) xl yl)
            (k + 2) xl yl)
          (flow.info.shape.2 * (k + 2)) (flow.info.shape.1 * (k + 2)) (k + 2) xl yl
          [(l, w)])
        (flow.info.shape.2 * (k + 2)) (flow.info.shape.1 * (k + 2)) = _
    rw [hdiv]
    rfl
  · intro g info2 a b da db m hda hdb hmx hmy
    simp only [finerGridCell, if_neg hmx, if_neg hmy]
    have h1 : (a * (k + 2) + da) / (k + 2) = a := by
      rw [Nat.mul_comm, Nat.mul_add_div (by omega), Nat.div_eq_of_lt hda]
      omega
    have h2 : (b * (k + 2) + db) / (k + 2) = b := by
      rw [Nat.mul_comm, Nat.mul_add_div (by omega), Nat.div_eq_of_lt hdb]
      omega
    rw [h1, h2]
  · intro g nyf nxf i j m hmx hmy hml
    have hno : lastWeightOf [(l, w)] m = none := lastWeightOf_single_ne l w m hml
    have hg : (fun a b => applyWeights [(l, w)] g a b m) = fun a b => g a b m := by
      funext a b
      rw [applyWeights_single, if_neg hml]
    simp only [supersampleDataOnGrid, hno, if_neg (not_or.mpr ⟨hmx, hmy⟩)]
    rw [hg]
    simp only [show ∀ p : Nat, p + (k + 2 - 1) + 1 = p + (k + 2) from fun p => by omega]
  · intro g nyf nxf i j hlx hly
    have hsome : lastWeightOf [(l, w)] l = some w := by simp [lastWeightOf]
    have hgw : (fun a b => applyWeights [(l, w)] g a b w) = fun a b => g a b w := by
      funext a b
      rw [applyWeights_single, if_neg hwl]
    have hgl : (fun a b => applyWeights [(l, w)] g a b l) =
        fun a b => g a b l * g a b w := by
      funext a b
      rw [applyWeights_single, if_pos rfl]
    simp only [supersampleDataOnGrid, hsome, if_neg (not_or.mpr ⟨hlx, hly⟩)]
    rw [hgw, hgl]
    simp only [show ∀ p : Nat, p + (k + 2 - 1) + 1 = p + (k + 2) from fun p => by omega]
  · intro n i h1 h2
    omega

/-- Closed instance of C4 on a 2 × 2 grid supersampled by 2: shape becomes
(4, 4), spacing (1/2, 1/2), origin (0, 0); a broadcast fine cell carries its
coarse value 3; the interior-free window mean of the plain field is 5/2; the
all-zero weight field yields 0; and the unclamped window spans 2*2-1 cells. -/
theorem supersample_pipeline_witness :
    (supersampleFlowData flowEx (some 2) "X" "Y" [("V", "W")]).info.shape = (4, 4) ∧
    (supersampleFlowData flowEx (some 2) "X" "Y" [("V", "W")]).info.spacing = (1/2, 1/2) ∧
    (supersampleFlowData flowEx (some 2) "X" "Y" [("V", "W")]).info.origin = (0, 0) ∧
    finerGridCell (sortedRaster "X" "Y" flowEx.cells 2) gInfoEx 2 "X" "Y" 3 1 "C" = 3 ∧
    supersampleDataOnGrid (sortedRaster "X" "Y" flowEx.cells 2) 2 2 2 "X" "Y"
      [("V", "W")] 0 0 "C" = 5/2 ∧
    supersampleDataOnGrid (sortedRaster "X" "Y" flowEx.cells 2) 2 2 2 "X" "Y"
      [("V", "W")] 0 0 "V" = 0 ∧
    min (1 + 2) 4 - (1 - 1) = 2 * 2 - 1 := by
  obtain ⟨⟨hsh, hsp, hor⟩, _, hbr, hplain, hwt, hwin⟩ :=
    supersample_pipeline flowEx 2 "X" "Y" "V" "W" (by decide) (by decide)
      (by simp [flowEx])
  refine ⟨?_, ?_, ?_, ?_, ?_, ?_, hwin 4 1 (by decide) (by decide)⟩
  · rw [hsh]
    with_unfolding_all rfl
  · rw [hsp]
    with_unfolding_all rfl
  · rw [hor]
    with_unfolding_all rfl
  · have := hbr (sortedRaster "X" "Y" flowEx.cells 2) gInfoEx 1 0 1 1 "C"
      (by decide) (by decide) (by decide) (by decide)
    rw [show (3 : Nat) = 1 * 2 + 1 from rfl, show (1 : Nat) = 0 * 2 + 1 from rfl]
    rw [this]
    with_unfolding_all rfl
  · rw [hplain (sortedRaster "X" "Y" flowEx.cells 2) 2 2 0 0 "C"
      (by decide) (by decide) (by decide)]
    simp only [windowSumRect, sortedRaster, flowEx]
    with_unfolding_all rfl
  · rw [hwt (sortedRaster "X" "Y" flowEx.cells 2) 2 2 0 0 (by decide) (by decide)]
    simp only [windowSumRect, sortedRaster, flowEx]
    with_unfolding_all rfl

lemma arange_length (a b s : ℚ) : (arange a b s).length = (⌈(b - a) / s⌉).toNat := by
  simp [arange]

lemma arange_getD (a b s : ℚ) (k : Nat) (hk : k < (⌈(b - a) / s⌉).toNat) :
    (arange a b s).getD k 0 = a + (k : ℚ) * s := by
  unfold arange
  rw [List.getD_eq_getElem?_getD, List.getElem?_map, List.getElem?_range hk]
  rfl

lemma arange_covers (a b s : ℚ) (hs : 0 < s) (hab : a ≤ b) :
    ∃ k < (arange a (b + s) s).length, b ≤ (arange a (b + s) s).getD k 0 := by
  have hq : (0:ℚ) ≤ (b - a) / s := div_nonneg (by linarith) (le_of_lt hs)
  have hstep : (b + s - a) / s = (b - a) / s + 1 := by
    have hb : (b + s - a) = (b - a) + s := by ring
    rw [hb, add_div, div_self (ne_of_gt hs)]
  have hceil : ⌈(b + s - a) / s⌉ = ⌈(b - a) / s⌉ + 1 := by
    rw [hstep]
    exact Int.ceil_add_one _
  have hc0 : 0 ≤ ⌈(b - a) / s⌉ := Int.ceil_nonneg hq
  have hlt : (⌈(b - a) / s⌉).toNat < (⌈(b + s - a) / s⌉).toNat := by
    rw [hceil]
    omega
  refine ⟨(⌈(b - a) / s⌉).toNat, ?_, ?_⟩
  · rw [arange_length]
    exact hlt
  · rw [arange_getD a (b + s) s _ hlt]
    have hcast : (((⌈(b - a) / s⌉).toNat : ℚ)) = ((⌈(b - a) / s⌉ : ℤ) : ℚ) := by
      exact_mod_cast congrArg (fun z : ℤ => (z : ℚ)) (Int.toNat_of_nonneg hc0)
    rw [hcast]
    have h2 := Int.le_ceil ((b - a) / s)
    have h3 : b - a ≤ ((⌈(b - a) / s⌉ : ℤ) : ℚ) * s := (div_le_iff₀ hs).mp h2
    linarith

/-- C7: the grid unifier rejects an empty record list with `ValueError`; for
a non-empty list it builds each axis as `arange(min, max + spacing, spacing)`
over the global extrema, meshes them y-major/x-minor into shape
`(len(y_axis), len(x_axis))` and zero-initializes every non-coordinate
field; and an `arange` run to `max + spacing` always covers the maximum
observed coordinate. -/
theorem combined_grid_spec :
    (∀ dx dy : ℚ, getCombinedGrid [] dx dy = Except.error "no input") ∧
    (∀ (r : CoordRec) (rs : List CoordRec) (dx dy : ℚ),
      ∃ g, getCombinedGrid (r :: rs) dx dy = Except.ok g ∧
        g.shape =
          ((arange (listMin ((r :: rs).map (fun t => listMin t.Y)))
             (listMax ((r :: rs).map (fun t => listMax t.Y)) + dy) dy).length,
           (arange (listMin ((r :: rs).map (fun t => listMin t.X)))
             (listMax ((r :: rs).map (fun t => listMax t.X)) + dx) dx).length) ∧
        (∀ i j, g.xs i j =
          (arange (listMin ((r :: rs).map (fun t => listMin t.X)))
             (listMax ((r :: rs).map (fun t => listMax t.X)) + dx) dx).getD j 0) ∧
        (∀ i j, g.ys i j =
          (arange (listMin ((r :: rs).map (fun t => listMin t.Y)))
             (listMax ((r :: rs).map (fun t => listMax t.Y)) + dy) dy).getD i 0) ∧
        (∀ lbl i j, g.dataFields lbl i j = 0)) ∧
    (∀ a b s : ℚ, 0 < s → a ≤ b →
      ∃ k < (arange a (b + s) s).length, b ≤ (arange a (b + s) s).getD k 0) := by
  refine ⟨fun _ _ => rfl, ?_, arange_covers⟩
  intro r rs dx dy
  exact ⟨_, rfl, rfl, fun _ _ => rfl, fun _ _ => rfl, fun _ _ _ => rfl⟩

/-- Closed instance of C7: two disjoint 2 × 2 grids spanning [0,1]² and
[2,3]² at spacing 1 unify to a (4, 4) grid spanning [0,3]², with
zero-initialized data fields, and the covering index exists. -/
theorem combined_grid_spec_witness :
    (∃ g, getCombinedGrid [recA, recB] 1 1 = Except.ok g ∧
      g.shape = (4, 4) ∧ g.xs 0 3 = 3 ∧ g.ys 3 0 = 3 ∧ g.xs 0 0 = 0 ∧
      g.dataFields "C" 2 2 = 0) ∧
    (∃ k < (arange 0 (3 + 1) 1).length, (3:ℚ) ≤ (arange 0 (3 + 1) 1).getD k 0) := by
  constructor
  · obtain ⟨g, hok, hsh, hxs, hys, hz⟩ := combined_grid_spec.2.1 recA [recB] 1 1
    refine ⟨g, hok, ?_, ?_, ?_, ?_, hz "C" 2 2⟩
    · rw [hsh]
      with_unfolding_all rfl
    · rw [hxs 0 3]
      with_unfolding_all rfl
    · rw [hys 3 0]
      with_unfolding_all rfl
    · rw [hxs 0 0]
      with_unfolding_all rfl
  · exact combined_grid_spec.2.2 0 3 1 (by norm_num) (by norm_num)

/-- C8: supersampling with factor `None` or 1 is an identity transform — the
returned record's data and grid metadata equal the input's — and at heap
level `flow.copy()` returns a freshly allocated array with the caller's
values, leaving the caller's array untouched. -/
theorem supersample_identity (flow : FlowDataR) (xl yl : String)
    (ws : List (String × String)) :
    supersampleFlowData flow none xl yl ws = flow ∧
    supersampleFlowData flow (some 1) xl yl ws = flow ∧
    (∀ (s : Heap) (dataId : Nat) (info : GridInfo) (labels : List String),
      dataId < s.next →
      (supersampleHeap s dataId info labels none xl yl ws).1 ≠ dataId ∧
      (supersampleHeap s dataId info labels none xl yl ws).2.mem
        (supersampleHeap s dataId info labels none xl yl ws).1 = s.mem dataId ∧
      (supersampleHeap s dataId info labels none xl yl ws).2.mem dataId =
        s.mem dataId ∧
      (supersampleHeap s dataId info labels (some 1) xl yl ws).1 ≠ dataId ∧
      (supersampleHeap s dataId info labels (some 1) xl yl ws).2.mem dataId =
        s.mem dataId) := by
  refine ⟨rfl, rfl, ?_⟩
  intro s dataId info labels h
  have hne : dataId ≠ s.next := Nat.ne_of_lt h
  refine ⟨?_, ?_, ?_, ?_, ?_⟩
  · exact fun hc => hne hc.symm
  · simp [supersampleHeap, halloc]
  · simp [supersampleHeap, halloc, hne]
  · exact fun hc => hne hc.symm
  · simp [supersampleHeap, halloc, hne]

/-- Closed instance of C8 on the concrete record and heap. -/
theorem supersample_identity_witness :
    supersampleFlowData flowEx none "X" "Y" [] = flowEx ∧
    supersampleFlowData flowEx (some 1) "X" "Y" [] = flowEx ∧
    (supersampleHeap hEx 0 gInfoEx [] none "X" "Y" []).1 ≠ 0 ∧
    (supersampleHeap hEx 0 gInfoEx [] none "X" "Y" []).2.mem
      (supersampleHeap hEx 0 gInfoEx [] none "X" "Y" []).1 = hEx.mem 0 ∧
    (supersampleHeap hEx 0 gInfoEx [] none "X" "Y" []).2.mem 0 = hEx.mem 0 := by
  obtain ⟨h1, h2, h3⟩ := supersample_identity flowEx "X" "Y" []
  obtain ⟨ha, hb, hc, _, _⟩ := h3 hEx 0 gInfoEx [] (by decide)
  exact ⟨h1, h2, ha, hb, hc⟩

/-- C9: none of the three operations mutates its caller's arrays: at heap
level, downsampling, supersampling and frame averaging leave every
caller-owned array id holding its original contents (all in-place writes
target freshly allocated copies). -/
theorem operations_preserve_inputs :
    (∀ (s : Heap) (dataId : Nat) (info : GridInfo) (labels : List String)
       (nc : Nat × Nat) (xl yl : String) (ws : List (String × String))
       (xlim ylim : Option ℚ × Option ℚ), dataId < s.next →
      (downsampleHeap s dataId info labels nc xl yl ws xlim ylim).2.mem dataId =
        s.mem dataId) ∧
    (∀ (s : Heap) (dataId : Nat) (info : GridInfo) (labels : List String)
       (factor : Option Nat) (xl yl : String) (ws : List (String × String)),
      dataId < s.next →
      (supersampleHeap s dataId info labels factor xl yl ws).2.mem dataId =
        s.mem dataId) ∧
    (∀ (s : Heap) (ids : List Nat) (n : Nat) (atol rtol : ℚ) (i : Nat),
      i ∈ ids → i < s.next →
      (averageDataHeap s ids n atol rtol).2.mem i = s.mem i) := by
  refine ⟨?_, ?_, ?_⟩
  · intro s dataId info labels nc xl yl ws xlim ylim h
    simp only [downsampleHeap, halloc, hwrite]
    split_ifs <;> first | rfl | omega
  · intro s dataId info labels factor xl yl ws h
    have hne : dataId ≠ s.next := Nat.ne_of_lt h
    match factor with
    | none => simp [supersampleHeap, halloc, hne]
    | some 1 => simp [supersampleHeap, halloc, hne]
    | some 0 =>
      simp only [supersampleHeap, halloc, hwrite]
      split_ifs <;> first | rfl | omega
    | some (k + 2) =>
      simp only [supersampleHeap, halloc, hwrite]
      split_ifs <;> first | rfl | omega
  · intro s ids n atol rtol i hi h
    unfold averageDataHeap
    cases havg : averageData n atol rtol (ids.map fun t => mapOfCells (s.mem t)) with
    | error e => simp
    | ok o =>
      cases o with
      | none => simp
      | some out => simp [halloc, Nat.ne_of_lt h]

/-- Closed instance of C9 on the concrete heap: all three operations leave
array 0 unchanged. -/
theorem operations_preserve_inputs_witness :
    (downsampleHeap hEx 0 gInfoEx ["X", "Y", "C"] (1, 1) "X" "Y" []
      (none, none) (none, none)).2.mem 0 = hEx.mem 0 ∧
    (supersampleHeap hEx 0 gInfoEx ["X", "Y", "C"] (some 2) "X" "Y" []).2.mem 0 =
      hEx.mem 0 ∧
    (averageDataHeap hEx [0] 1 (1/1000) (1/100000)).2.mem 0 = hEx.mem 0 := by
  obtain ⟨h1, h2, h3⟩ := operations_preserve_inputs
  exact ⟨h1 hEx 0 gInfoEx ["X", "Y", "C"] (1, 1) "X" "Y" [] (none, none) (none, none)
      (by decide),
    h2 hEx 0 gInfoEx ["X", "Y", "C"] (some 2) "X" "Y" [] (by decide),
    h3 hEx [0] 1 (1/1000) (1/100000) 0 (by simp) (by decide)⟩
